import Mathlib

/-!
Shallow embedding of the e-commerce backend in src/main.py (FastAPI + MongoDB).

Conventions of the embedding:
* Python floats (product prices, order totals) are IEEE-754 binary64
  doubles; each finite double is modelled by its exact rational value, and
  each arithmetic step rounds its exact result to 53 significant bits,
  nearest ties-to-even, on the binary64 exponent range (roundB64 below).
  Infinities and NaN are outside the model; every value in the theorems
  below stays far below the overflow threshold.
* Python ints (quantities, limit, offset) are modelled as Int.
* A product id in an order request is parsed by bson.ObjectId before the
  lookup; hex parsing is case-insensitive and the store compares the parsed
  12-byte value, modelled by comparing lowercased hex digit strings.
* A MongoDB collection is a list of documents in ascending order of the
  opaque identifier assigned at insertion, so that sorting on that identifier
  ascending (as both list endpoints do) returns the list in its stored order.
* Raising an exception is modelled by an Except value; the try/except blocks
  of the handlers are modelled by explicit matches on that value.
-/

namespace ECom

/-- Entry of a product's sizes array (class Size, main.py). -/
structure Size where
  size : String
  quantity : Int
deriving DecidableEq

/-- A stored product document of the products collection: the Mongo-assigned
id as its hex string, plus the fields inserted by create_product. -/
structure Product where
  _id : String
  name : String
  price : Rat
  sizes : List Size
deriving DecidableEq

/-- Summary view of a product returned by the list endpoint (class
ProductResponse, main.py): only id, name and price, no sizes field. -/
structure ProductResponse where
  id : String
  name : String
  price : Rat
deriving DecidableEq

/-- Hex-digit test used by bson ObjectId validation. -/
def isHexChar (c : Char) : Bool :=
  (decide ('0' ≤ c) && decide (c ≤ '9')) ||
  (decide ('a' ≤ c) && decide (c ≤ 'f')) ||
  (decide ('A' ≤ c) && decide (c ≤ 'F'))

/-- Validity of a product id string: bson.ObjectId(s) succeeds on a string
exactly when it is 24 hexadecimal characters; otherwise it raises, which
create_order turns into a 400 error. -/
def isValidObjectId (s : String) : Bool :=
  decide (s.length = 24) && s.data.all isHexChar

/-- Round a rational to the nearest integer, ties to even: the rounding
rule of IEEE-754 round-to-nearest arithmetic, applied to the significand
position picked by roundB64. -/
def rne (x : ℚ) : ℤ :=
  let f := ⌊x⌋
  if x - f < 1/2 then f
  else if (1:ℚ)/2 < x - f then f + 1
  else if f % 2 = 0 then f else f + 1

/-- Correctly rounded IEEE-754 binary64 value of an exact rational: round
to 53 significant bits, nearest ties-to-even, with the grid exponent
clamped below at the subnormal scale 2^(-1074). This is the value of every
finite double the Python runtime computes. Overflow to infinity and NaN
are outside the model; all values in this development stay far below the
overflow threshold. -/
def roundB64 (q : ℚ) : ℚ :=
  if q = 0 then 0
  else
    let e : ℤ := max (Int.log 2 |q| - 52) (-1074)
    rne (q / 2 ^ e) * 2 ^ e

/-- IEEE-754 binary64 addition: the exact sum, correctly rounded. This is
the semantics of the += accumulation of total_price in create_order. -/
def fadd (a b : ℚ) : ℚ := roundB64 (a + b)

/-- IEEE-754 binary64 multiplication: the exact product, correctly
rounded. This is the semantics of price * qty in create_order, after the
Python int qty is itself converted to a double (roundB64 of its value). -/
def fmul (a b : ℚ) : ℚ := roundB64 (a * b)

/-- Case-insensitive match of one regex atom against one character, for the
fragment of patterns handled by regexSearchI: a dot matches any character,
any other character matches itself up to ASCII case. -/
def charMatchesI (pc c : Char) : Bool :=
  if pc = '.' then true else pc.toLower == c.toLower

/-- Match a dot-or-literal pattern against a prefix of the text,
case-insensitively, character by character. -/
def matchesHere : List Char → List Char → Bool
  | [], _ => true
  | _ :: _, [] => false
  | pc :: ps, c :: cs => charMatchesI pc c && matchesHere ps cs

/-- Metacharacters of the PCRE dialect interpreted by the store's regex
operator. A query string containing none of these is matched purely
literally. -/
def regexMeta : List Char :=
  ['.', '*', '+', '?', '^', '$', '(', ')', '[', ']', '|', '\\', '\x7b', '\x7d']

/-- Unanchored case-insensitive regex search, modelling the MongoDB filter
\x7b"name": \x7b"$regex": pat, "$options": "i"\x7d\x7d built by
list_products. The model covers the fragment of patterns whose only
metacharacter is the dot (any other character is treated as a literal);
every theorem below invokes it only on patterns inside that fragment. -/
def regexSearchI (pat s : String) : Bool :=
  (List.range (s.data.length + 1)).any (fun i => matchesHere pat.data (s.data.drop i))

/-- Case-insensitive unanchored substring test: the spec-side notion that
the name filter is claimed to implement. -/
def isCISubstring (q s : String) : Bool :=
  (List.range (s.data.length + 1)).any
    (fun i => ((s.data.drop i).take q.data.length).map Char.toLower == q.data.map Char.toLower)

/-- Truthiness of an optional string in Python: None and the empty string
are falsy, every other string is truthy. -/
def strTruthy : Option String → Bool
  | none => false
  | some s => !s.isEmpty

/-- The Mongo query filter document built by list_products: an optional
case-insensitive regex clause on name, and an optional exact-match clause
on sizes.size. -/
structure QueryFilter where
  nameRegex : Option String
  sizeEq : Option String
deriving DecidableEq

/-- Filter construction of list_products (main.py lines 137-145): each
clause is added only when the corresponding query parameter is truthy. -/
def build_query_filter (name size : Option String) : QueryFilter :=
  let qf : QueryFilter := ⟨none, none⟩
  let qf := if strTruthy name then { qf with nameRegex := name } else qf
  let qf := if strTruthy size then { qf with sizeEq := size } else qf
  qf

/-- Evaluation of the query filter on one stored product, modelling MongoDB
semantics: the regex clause holds when the pattern matches the name
case-insensitively and unanchored; the sizes.size clause holds when at
least one element of the sizes array has that exact size label; an absent
clause holds for every document. -/
def matchesFilter (qf : QueryFilter) (p : Product) : Bool :=
  (match qf.nameRegex with
   | none => true
   | some pat => regexSearchI pat p.name) &&
  (match qf.sizeEq with
   | none => true
   | some q => p.sizes.any (fun sz => sz.size == q))

/-- Pagination descriptor attached to both list responses: next and previous
hold the stringified adjacent offsets or are absent (None). -/
structure Page where
  next : Option String
  limit : Int
  previous : Option String
deriving DecidableEq

/-- Next-offset arithmetic shared by list_products and get_user_orders:
offset + limit when another page exists, else absent. -/
def next_offset (offset limit total_count : Int) : Option Int :=
  if offset + limit < total_count then some (offset + limit) else none

/-- Previous-offset arithmetic shared by list_products and get_user_orders:
max(0, offset - limit) when offset is positive, else absent. -/
def prev_offset (offset limit : Int) : Option Int :=
  if offset > 0 then some (max 0 (offset - limit)) else none

/-- Pagination object built by both list endpoints: the offsets of
next_offset and prev_offset converted to strings when present. -/
def paginationOf (offset limit total_count : Int) : Page :=
  { next := (next_offset offset limit total_count).map toString
    limit := limit
    previous := (prev_offset offset limit).map toString }

/-- Response shaping of one product in the list endpoint (product_helper,
main.py lines 86-91): exactly the fields id, name and price. -/
def product_helper (p : Product) : ProductResponse :=
  { id := p._id, name := p.name, price := p.price }

/-- Body of a product-list response: the shaped page of data plus the
pagination descriptor. -/
structure ProductListResponse where
  data : List ProductResponse
  page : Page
deriving DecidableEq

/-- The GET /products handler (list_products, main.py lines 125-174):
build the filter, count the matching documents, take the requested page of
the matches in stored (creation) order, shape each product, and attach the
pagination descriptor. -/
def list_products (products : List Product) (name size : Option String)
    (limit offset : Int) : ProductListResponse :=
  let query_filter := build_query_filter name size
  let matched := products.filter (fun p => matchesFilter query_filter p)
  let total_count : Int := matched.length
  let page_items := (matched.drop offset.toNat).take limit.toNat
  { data := page_items.map product_helper
    page := paginationOf offset limit total_count }

/-- Line item of an order-creation request (class OrderItem, main.py). -/
structure OrderItem where
  productId : String
  qty : Int
deriving DecidableEq

/-- Body of a POST /orders request (class OrderCreate, main.py). -/
structure OrderCreate where
  userId : String
  items : List OrderItem
deriving DecidableEq

/-- Denormalized product snapshot embedded in a stored order item. -/
structure ProductDetails where
  name : String
  id : String
deriving DecidableEq

/-- Stored line item of an order document. -/
structure OrderItemDetails where
  productDetails : ProductDetails
  qty : Int
deriving DecidableEq

/-- A stored order document of the orders collection: the Mongo-assigned id
as its hex string, plus the fields of the order_doc built by create_order.
The insertion timestamp is abstracted to a Nat clock value. -/
structure StoredOrder where
  _id : String
  userId : String
  items : List OrderItemDetails
  total : Rat
  createdAt : Nat
deriving DecidableEq

/-- Exceptions that reach the outer try/except of a handler: an
HTTPException carrying a status code and detail message, or any other
exception (store failures and the like) carrying its message. -/
inductive PyExc where
  | http (status : Nat) (detail : String)
  | other (msg : String)
deriving DecidableEq

/-- Translation of a caught exception at the handler boundary (main.py
lines 227-230): an HTTPException is re-raised with its own status and
detail, and any other exception becomes a 500 with its message. -/
def handleExc : PyExc → Nat × String
  | .http s d => (s, d)
  | .other m => (500, m)

/-- Outcome of a handler as seen by the client: a success status with a
payload, or a failure status with a detail message. -/
inductive HandlerResult (α : Type) where
  | success (status : Nat) (val : α)
  | failure (status : Nat) (detail : String)
deriving DecidableEq

/-- Parsed ObjectId value of a well-formed 24-hex-digit string, as compared
by the store: ObjectId equality is equality of the 12 parsed bytes, and hex
parsing is case-insensitive, so two well-formed hex strings denote the same
ObjectId exactly when they agree up to ASCII case. The byte value is
modelled by the lowercased digit sequence. -/
def objectIdBytes (s : String) : List Char := s.data.map Char.toLower

/-- Mongo find_one on the products collection with the filter
_id = ObjectId(pid): the document whose ObjectId equals the parsed request
id, if any. The comparison is on parsed ObjectId bytes, hence insensitive
to the hex case of the request id. -/
def findProduct (products : List Product) (pid : String) : Option Product :=
  products.find? (fun p => objectIdBytes p._id == objectIdBytes pid)

/-- The item-validation loop of create_order (main.py lines 188-211), with
its observable store effect made explicit: the first component is the list
of product ids looked up in the products collection, in order; the second
is the exception raised or the accumulated (total_price, order_items).
For each item: an id that bson.ObjectId rejects raises a 400 before any
lookup; a valid id is looked up, and a missing product raises a 404;
otherwise the line total price * qty is computed in double arithmetic
(qty converted to a double, the product rounded), accumulated into
total_price with a rounded addition, and the denormalized item record
appended. -/
def assembleItems (products : List Product) (total_price : Rat)
    (order_items : List OrderItemDetails) :
    List OrderItem → List String × Except PyExc (Rat × List OrderItemDetails)
  | [] => ([], .ok (total_price, order_items))
  | item :: rest =>
    if isValidObjectId item.productId then
      match findProduct products item.productId with
      | none => ([item.productId], .error (.http 404 ("Product not found: " ++ item.productId)))
      | some product =>
        let r := assembleItems products
          (fadd total_price (fmul product.price (roundB64 (item.qty : Rat))))
          (order_items ++ [{ productDetails := { name := product.name, id := item.productId }
                             qty := item.qty }]) rest
        (item.productId :: r.1, r.2)
    else ([], .error (.http 400 ("Invalid product ID: " ++ item.productId)))

/-- The POST /orders handler (create_order, main.py lines 178-230) acting
on the orders collection: on success of the item loop, exactly one order
document is inserted (with the Mongo-assigned newId and the current time
now) and a 201 with the new id is returned; on an exception nothing is
inserted and the exception is translated by handleExc. The returned pair
is (orders collection after the request, response). -/
def create_order (products : List Product) (orders : List StoredOrder)
    (order : OrderCreate) (now : Nat) (newId : String) :
    List StoredOrder × HandlerResult String :=
  match (assembleItems products 0 [] order.items).2 with
  | .ok (total_price, order_items) =>
    (orders ++ [{ _id := newId, userId := order.userId, items := order_items
                  total := total_price, createdAt := now }],
     .success 201 newId)
  | .error e =>
    (orders, .failure (handleExc e).1 (handleExc e).2)

/-- Summary view of an order returned by the user-orders list endpoint
(order_helper, main.py lines 93-98). -/
structure OrderDetails where
  id : String
  items : List OrderItemDetails
  total : Rat
deriving DecidableEq

/-- Body of a user-orders list response. -/
structure OrderListResponse where
  data : List OrderDetails
  page : Page
deriving DecidableEq

/-- Response shaping of one order (order_helper, main.py). -/
def order_helper (o : StoredOrder) : OrderDetails :=
  { id := o._id, items := o.items, total := o.total }

/-- The GET /orders/user_id handler (get_user_orders, main.py lines
232-272): filter the orders collection on exact userId match, count the
matches, take the requested page in stored order, shape each order, and
attach the pagination descriptor. -/
def get_user_orders (orders : List StoredOrder) (user_id : String)
    (limit offset : Int) : OrderListResponse :=
  let matched := orders.filter (fun o => o.userId == user_id)
  let total_count : Int := matched.length
  let page_items := (matched.drop offset.toNat).take limit.toNat
  { data := page_items.map order_helper
    page := paginationOf offset limit total_count }

/-- Spec-side formula for an order total (section 4.3 of the spec): resolve
every item's product and take the lineTotal price times qty; absent when
some item does not resolve. -/
def resolveLineTotals (products : List Product) (items : List OrderItem) :
    Option (List Rat) :=
  items.mapM (fun it => (findProduct products it.productId).map
    (fun p => p.price * (it.qty : Rat)))

/-- Spec-side order total: the exact sum of price times qty over all items,
when every item resolves. This is the quantity the spec asserts the
persisted total equals; the code computes the rounded double evaluation
instead (floatTotal below). -/
def exactTotal (products : List Product) (items : List OrderItem) : Option Rat :=
  (resolveLineTotals products items).map (fun l => l.sum)

/-- Double-arithmetic line totals, exactly as the loop computes them: for
each resolved item, fmul of the stored price with the double value of qty;
absent when some item does not resolve. -/
def floatLineTotals (products : List Product) (items : List OrderItem) :
    Option (List Rat) :=
  items.mapM (fun it => (findProduct products it.productId).map
    (fun p => fmul p.price (roundB64 (it.qty : Rat))))

/-- Double-arithmetic order total: the line totals accumulated
left-to-right with rounded additions starting from 0.0, exactly as
total_price is accumulated by create_order. -/
def floatTotal (products : List Product) (items : List OrderItem) : Option Rat :=
  (floatLineTotals products items).map (fun l => l.foldl fadd 0)

/-- An order item the validation loop passes: its id is well-formed and its
product is stored. -/
def goodItem (products : List Product) (it : OrderItem) : Prop :=
  isValidObjectId it.productId = true ∧ (findProduct products it.productId).isSome = true

instance (products : List Product) (it : OrderItem) : Decidable (goodItem products it) :=
  inferInstanceAs (Decidable (isValidObjectId it.productId = true ∧
    (findProduct products it.productId).isSome = true))

/-! Sample concrete values used by witnesses. -/

/-- Sample stored product named Tee, as in the spec's order scenario. -/
def pTee : Product :=
  { _id := "0123456789abcdef01234567", name := "Tee", price := 20
    sizes := [{ size := "M", quantity := 5 }] }

/-- Sample stored product named Blue Shirt, as in the spec's filter examples. -/
def pBlueShirt : Product :=
  { _id := "aaaaaaaaaaaaaaaaaaaaaaaa", name := "Blue Shirt", price := 10, sizes := [] }

/-- Sample stored product with the one-letter name X. -/
def pX : Product :=
  { _id := "bbbbbbbbbbbbbbbbbbbbbbbb", name := "X", price := 1, sizes := [] }

/-- Fidelity check of the lookup model: a request id that is the
uppercase hex alias of a stored id parses to the same ObjectId bytes and
resolves the stored product. -/
lemma findProduct_hex_case_insensitive :
    findProduct [pTee] "0123456789ABCDEF01234567" = some pTee := by
  show List.find? _ (pTee :: []) = some pTee
  exact List.find?_cons_of_pos _ (by decide)

/-! Helper lemmas. -/

/-- On a pattern free of regex metacharacters, matching at a position is
exactly case-folded equality with the prefix of that length. -/
lemma matchesHere_noMeta (ps : List Char) (h : ∀ c ∈ ps, ¬ c ∈ regexMeta) :
    ∀ cs : List Char,
      matchesHere ps cs = true ↔ (cs.take ps.length).map Char.toLower = ps.map Char.toLower := by
  induction ps with
  | nil => intro cs; simp [matchesHere]
  | cons pc ps ih =>
    intro cs
    cases cs with
    | nil => simp [matchesHere]
    | cons c cs =>
      have hpc : pc ≠ '.' := by
        intro e
        exact (h pc (by simp)) (by simp [regexMeta, e])
      have ihc := ih (fun c hc => h c (List.mem_cons_of_mem _ hc)) cs
      simp only [matchesHere, charMatchesI, if_neg hpc, Bool.and_eq_true, beq_iff_eq,
        List.length_cons, List.take_succ_cons, List.map_cons, List.cons.injEq, ihc]
      constructor
      · rintro ⟨h1, h2⟩; exact ⟨h1.symm, h2⟩
      · rintro ⟨h1, h2⟩; exact ⟨h1.symm, h2⟩

/-- On a query free of regex metacharacters, the unanchored case-insensitive
regex search coincides with the case-insensitive substring test. -/
lemma regexSearchI_noMeta (q s : String) (h : ∀ c ∈ q.data, ¬ c ∈ regexMeta) :
    regexSearchI q s = isCISubstring q s := by
  rw [Bool.eq_iff_iff]
  unfold regexSearchI isCISubstring
  simp only [List.any_eq_true]
  exact exists_congr fun i =>
    and_congr_right fun _ => by rw [matchesHere_noMeta q.data h, beq_iff_eq]

/-- Empty queries always pass the substring test. -/
lemma isCISubstring_empty (s : String) : isCISubstring "" s = true := by
  unfold isCISubstring
  simp only [List.any_eq_true]
  exact ⟨0, by simp⟩

/-- A query filter with no clauses matches every product. -/
lemma matchesFilter_none (p : Product) : matchesFilter ⟨none, none⟩ p = true := rfl

/-! Claim theorems and witnesses. -/

/-- C3: for totalCount >= 0, limit >= 1, offset >= 0, the pagination
descriptor is (next, limit, previous) where next is present iff
offset + limit < totalCount, encoding offset + limit, and previous is
present iff offset > 0, encoding max(0, offset - limit); listing with
limit 1 and offset 0 over 3 stored items yields next "1", previous null. -/
theorem pagination_descriptor_correct (offset limit total_count : Int)
    (hl : 1 ≤ limit) (ho : 0 ≤ offset) (ht : 0 ≤ total_count) :
    ((paginationOf offset limit total_count).next =
       if offset + limit < total_count then some (toString (offset + limit)) else none) ∧
    ((paginationOf offset limit total_count).previous =
       if 0 < offset then some (toString (max 0 (offset - limit))) else none) ∧
    ((paginationOf offset limit total_count).limit = limit) ∧
    (∀ products : List Product, products.length = 3 →
       (list_products products none none 1 0).page =
         { next := some "1", limit := 1, previous := none }) := by
  refine ⟨?_, ?_, rfl, ?_⟩
  · unfold paginationOf next_offset
    by_cases hc : offset + limit < total_count <;> simp [hc]
  · unfold paginationOf prev_offset
    by_cases hc : 0 < offset <;> simp [hc]
  · intro products hlen
    unfold list_products
    have hfilter : products.filter
        (fun p => matchesFilter (build_query_filter none none) p) = products :=
      List.filter_eq_self.mpr fun p _ => matchesFilter_none p
    simp only [hfilter, hlen]
    rfl

/-- Witness for pagination_descriptor_correct at offset 0, limit 1,
totalCount 3 with three concrete stored products. -/
theorem pagination_descriptor_correct_witness :
    ((paginationOf 0 1 3).next = if (0 : Int) + 1 < 3 then some (toString ((0 : Int) + 1)) else none) ∧
    (list_products [pTee, pBlueShirt, pX] none none 1 0).page =
      { next := some "1", limit := 1, previous := none } := by
  have h := pagination_descriptor_correct 0 1 3 (by decide) (by decide) (by decide)
  exact ⟨h.1, h.2.2.2 [pTee, pBlueShirt, pX] (by decide)⟩

/-- C4 counterexample: the claim fails on the code in two ways. First, the
query string is interpreted as a regular expression, not a literal: the
query consisting of a single dot selects the product named X although a dot
is not a substring of that name. Second, the claim's own example is wrong:
the name Blue Shirt does not contain ues as a case-insensitive substring,
and the code does not select it for that query. -/
theorem name_filter_substring_counterexample :
    (matchesFilter (build_query_filter (some ".") none) pX = true ∧
       isCISubstring "." pX.name = false) ∧
    (matchesFilter (build_query_filter (some "ues") none) pBlueShirt = false ∧
       isCISubstring "ues" pBlueShirt.name = false) := by
  decide

/-- C4 (amended): for every stored product and every name query string
containing no regex metacharacter, the name filter selects the product iff
the query occurs as a case-insensitive, unanchored substring of the
product's name (for general query strings the filter applies the query as
a case-insensitive regex, and Blue Shirt matches blue and Shirt but not
ues, which is not a substring of it). -/
theorem name_filter_ci_substring (q : String) (p : Product)
    (h : ∀ c ∈ q.data, ¬ c ∈ regexMeta) :
    matchesFilter (build_query_filter (some q) none) p = isCISubstring q p.name := by
  by_cases hq : q = ""
  · subst hq
    rw [isCISubstring_empty]
    rfl
  · have hne : q.isEmpty = false :=
      Bool.eq_false_iff.mpr (fun h2 => hq ((String.isEmpty_iff q).mp h2))
    have hbq : build_query_filter (some q) none = ⟨some q, none⟩ := by
      simp [build_query_filter, strTruthy, hne]
    rw [hbq]
    show (regexSearchI q p.name && true) = isCISubstring q p.name
    rw [Bool.and_true]
    exact regexSearchI_noMeta q p.name h

/-- Witness for name_filter_ci_substring: the queries blue and Shirt select
the product named Blue Shirt, and the non-substring query xyz does not. -/
theorem name_filter_ci_substring_witness :
    (matchesFilter (build_query_filter (some "blue") none) pBlueShirt = isCISubstring "blue" pBlueShirt.name ∧
       isCISubstring "blue" pBlueShirt.name = true) ∧
    (matchesFilter (build_query_filter (some "Shirt") none) pBlueShirt = isCISubstring "Shirt" pBlueShirt.name ∧
       isCISubstring "Shirt" pBlueShirt.name = true) ∧
    (matchesFilter (build_query_filter (some "xyz") none) pBlueShirt = isCISubstring "xyz" pBlueShirt.name ∧
       isCISubstring "xyz" pBlueShirt.name = false) := by
  refine ⟨⟨name_filter_ci_substring "blue" pBlueShirt (by decide), by decide⟩,
    ⟨name_filter_ci_substring "Shirt" pBlueShirt (by decide), by decide⟩,
    ⟨name_filter_ci_substring "xyz" pBlueShirt (by decide), by decide⟩⟩

/-- C7: the size filter selects a product iff at least one entry of its
sizes list has a size label exactly equal to the query's size string; with
both name and size given the conjunction of the two clauses is applied,
and with neither given every product matches. -/
theorem size_filter_exact_match (q nq : String) (p : Product)
    (hq : q ≠ "") (hnq : nq ≠ "") :
    (matchesFilter (build_query_filter none (some q)) p = true ↔
       ∃ sz ∈ p.sizes, sz.size = q) ∧
    (matchesFilter (build_query_filter (some nq) (some q)) p =
       (regexSearchI nq p.name && p.sizes.any (fun sz => sz.size == q))) ∧
    (matchesFilter (build_query_filter none none) p = true) := by
  have hqe : q.isEmpty = false :=
    Bool.eq_false_iff.mpr (fun h2 => hq ((String.isEmpty_iff q).mp h2))
  have hnqe : nq.isEmpty = false :=
    Bool.eq_false_iff.mpr (fun h2 => hnq ((String.isEmpty_iff nq).mp h2))
  refine ⟨?_, ?_, matchesFilter_none p⟩
  · have hbq : build_query_filter none (some q) = ⟨none, some q⟩ := by
      simp [build_query_filter, strTruthy, hqe]
    rw [hbq]
    show (true && p.sizes.any (fun sz => sz.size == q)) = true ↔ _
    simp only [Bool.true_and, List.any_eq_true, beq_iff_eq]
  · have hbq : build_query_filter (some nq) (some q) = ⟨some nq, some q⟩ := by
      simp [build_query_filter, strTruthy, hqe, hnqe]
    rw [hbq]
    rfl

/-- Witness for size_filter_exact_match: the product Tee carries size M, so
the size query M selects it, the size query L does not, and the name and
size filters combine as a conjunction. -/
theorem size_filter_exact_match_witness :
    (matchesFilter (build_query_filter none (some "M")) pTee = true) ∧
    (matchesFilter (build_query_filter none (some "L")) pTee = false) ∧
    (matchesFilter (build_query_filter (some "Tee") (some "M")) pTee =
       (regexSearchI "Tee" pTee.name && pTee.sizes.any (fun sz => sz.size == "M"))) ∧
    (matchesFilter (build_query_filter none none) pTee = true) := by
  have h1 := size_filter_exact_match "M" "Tee" pTee (by decide) (by decide)
  have h2 := size_filter_exact_match "L" "Tee" pTee (by decide) (by decide)
  refine ⟨h1.1.mpr ⟨{ size := "M", quantity := 5 }, by decide, rfl⟩, ?_, h1.2.1, h1.2.2⟩
  refine Bool.eq_false_iff.mpr (fun hm => ?_)
  obtain ⟨sz, hmem, hsz⟩ := h2.1.mp hm
  have hsz2 : sz = { size := "M", quantity := 5 } := by
    simpa [pTee] using hmem
  rw [hsz2] at hsz
  exact absurd hsz (by decide)

/-- C10: a name or size query parameter supplied as the empty string yields
the same query filter as an absent parameter, so the corresponding clause
is not applied and every product passes it. -/
theorem empty_query_param_as_absent (name size : Option String) (p : Product) :
    build_query_filter (some "") size = build_query_filter none size ∧
    build_query_filter name (some "") = build_query_filter name none ∧
    matchesFilter (build_query_filter (some "") (some "")) p = true := by
  have he : "".isEmpty = true := rfl
  refine ⟨?_, ?_, matchesFilter_none p⟩
  · simp [build_query_filter, strTruthy, he]
  · simp [build_query_filter, strTruthy, he]

/-- C8: every item returned by the product-list endpoint is exactly the id,
name and price of a stored product, and the shaping is independent of the
product's sizes list, however many sizes it has. -/
theorem product_list_omits_sizes :
    (∀ (products : List Product) (name size : Option String) (limit offset : Int)
       (r : ProductResponse),
       r ∈ (list_products products name size limit offset).data →
       ∃ p ∈ products, r = { id := p._id, name := p.name, price := p.price }) ∧
    (∀ (p : Product) (sizes : List Size),
       product_helper { p with sizes := sizes } = product_helper p) := by
  constructor
  · intro products name size limit offset r hr
    unfold list_products at hr
    simp only [List.mem_map] at hr
    obtain ⟨p, hp, hpr⟩ := hr
    have hp2 : p ∈ products :=
      List.mem_of_mem_filter (List.mem_of_mem_drop (List.mem_of_mem_take hp))
    exact ⟨p, hp2, hpr.symm⟩
  · intro p sizes
    rfl

/-- Witness for product_list_omits_sizes: the one item returned when
listing the singleton catalog of Tee is its id, name and price, with no
trace of its nonempty sizes list. -/
theorem product_list_omits_sizes_witness :
    (∃ p ∈ [pTee],
       ({ id := pTee._id, name := pTee.name, price := pTee.price } : ProductResponse) =
         { id := p._id, name := p.name, price := p.price }) ∧
    product_helper { pTee with sizes := [] } = product_helper pTee := by
  refine ⟨product_list_omits_sizes.1 [pTee] none none 10 0 _ ?_,
    product_list_omits_sizes.2 pTee []⟩
  decide

/-- Base-two integer logarithm of a positive rational pinned by its two
power bounds. -/
lemma int_log2_eq (q : ℚ) (k : ℤ) (hq : 0 < q)
    (h1 : (2:ℚ) ^ k ≤ q) (h2 : q < (2:ℚ) ^ (k+1)) : Int.log 2 q = k := by
  have hb : ((2:ℕ):ℚ) = (2:ℚ) := by norm_num
  have hle : k ≤ Int.log 2 q := by
    rw [← Int.zpow_le_iff_le_log (by norm_num) hq, hb]
    exact h1
  have hlt : Int.log 2 q < k + 1 := by
    rw [← Int.lt_zpow_iff_log_lt (by norm_num) hq, hb]
    exact h2
  omega

/-- Evaluation form of the ties-to-even rounding once the floor of its
argument is known. -/
lemma rne_eval (x : ℚ) (f : ℤ) (hf1 : (f:ℚ) ≤ x) (hf2 : x < f + 1) :
    rne x = if x - f < 1/2 then f else if (1:ℚ)/2 < x - f then f + 1
            else if f % 2 = 0 then f else f + 1 := by
  unfold rne
  rw [Int.floor_eq_iff.mpr ⟨hf1, hf2⟩]

/-- Evaluation form of binary64 rounding on a positive normal-range value
whose binade is known. -/
lemma roundB64_pos (q : ℚ) (k : ℤ) (hq : 0 < q)
    (h1 : (2:ℚ) ^ k ≤ q) (h2 : q < (2:ℚ) ^ (k + 1)) (hk : -1022 ≤ k) :
    roundB64 q = rne (q / 2 ^ (k - 52)) * 2 ^ (k - 52) := by
  unfold roundB64
  rw [if_neg hq.ne', abs_of_pos hq, int_log2_eq q k hq h1 h2]
  have hm : max (k - 52) (-1074 : ℤ) = k - 52 := by omega
  rw [hm]

/-- The double 1.0 is exactly representable. -/
lemma roundB64_one : roundB64 1 = 1 := by
  rw [roundB64_pos 1 0 (by norm_num) (by norm_num) (by norm_num) (by norm_num)]
  rw [show ((1:ℚ) / 2 ^ ((0:ℤ) - 52)) = 4503599627370496 by norm_num]
  rw [rne_eval _ 4503599627370496 (by norm_num) (by norm_num)]
  norm_num

/-- The double 2.0 is exactly representable. -/
lemma roundB64_two : roundB64 2 = 2 := by
  rw [roundB64_pos 2 1 (by norm_num) (by norm_num) (by norm_num) (by norm_num)]
  rw [show ((2:ℚ) / 2 ^ ((1:ℤ) - 52)) = 4503599627370496 by norm_num]
  rw [rne_eval _ 4503599627370496 (by norm_num) (by norm_num)]
  norm_num

/-- The double 40.0 is exactly representable. -/
lemma roundB64_forty : roundB64 40 = 40 := by
  rw [roundB64_pos 40 5 (by norm_num) (by norm_num) (by norm_num) (by norm_num)]
  rw [show ((40:ℚ) / 2 ^ ((5:ℤ) - 52)) = 5629499534213120 by norm_num]
  rw [rne_eval _ 5629499534213120 (by norm_num) (by norm_num)]
  norm_num

/-- The double 2^(-53) is exactly representable. -/
lemma roundB64_tiny : roundB64 (1/9007199254740992) = 1/9007199254740992 := by
  rw [roundB64_pos _ (-53) (by norm_num) (by norm_num) (by norm_num) (by norm_num)]
  rw [show ((1/9007199254740992 : ℚ) / 2 ^ ((-53:ℤ) - 52)) = 4503599627370496 by norm_num]
  rw [rne_eval _ 4503599627370496 (by norm_num) (by norm_num)]
  norm_num

/-- Adding 2^(-53) to 1.0 in double arithmetic rounds back to 1.0: the
exact sum sits halfway between the neighbouring doubles and the tie goes
to the even significand. -/
lemma roundB64_one_add_tiny : roundB64 (9007199254740993/9007199254740992) = 1 := by
  rw [roundB64_pos _ 0 (by norm_num) (by norm_num) (by norm_num) (by norm_num)]
  rw [show ((9007199254740993/9007199254740992 : ℚ) / 2 ^ ((0:ℤ) - 52)) =
    4503599627370496 + 1/2 by norm_num]
  rw [rne_eval _ 4503599627370496 (by norm_num) (by norm_num)]
  norm_num

/-- Ties-to-even rounding sends non-negative positions to non-negative
integers. -/
lemma rne_nonneg (x : ℚ) (hx : 0 ≤ x) : 0 ≤ rne x := by
  have hf : 0 ≤ ⌊x⌋ := Int.floor_nonneg.mpr hx
  rw [rne_eval x ⌊x⌋ (Int.floor_le x) (Int.lt_floor_add_one x)]
  split
  · exact hf
  · split
    · omega
    · split <;> omega

/-- Binary64 rounding preserves non-negativity. -/
lemma roundB64_nonneg (q : ℚ) (hq : 0 ≤ q) : 0 ≤ roundB64 q := by
  unfold roundB64
  split
  · exact le_refl 0
  · have h2 : (0:ℚ) < 2 ^ (max (Int.log 2 |q| - 52) (-1074)) :=
      zpow_pos (by norm_num) _
    exact mul_nonneg (by exact_mod_cast rne_nonneg _ (div_nonneg hq h2.le)) h2.le

/-- Rounded addition preserves non-negativity of both operands. -/
lemma fadd_nonneg (a b : ℚ) (ha : 0 ≤ a) (hb : 0 ≤ b) : 0 ≤ fadd a b :=
  roundB64_nonneg _ (add_nonneg ha hb)

/-- Rounded multiplication preserves non-negativity of both operands. -/
lemma fmul_nonneg (a b : ℚ) (ha : 0 ≤ a) (hb : 0 ≤ b) : 0 ≤ fmul a b :=
  roundB64_nonneg _ (mul_nonneg ha hb)

/-- Accumulating non-negative line totals with rounded additions from a
non-negative start stays non-negative. -/
lemma foldl_fadd_nonneg :
    ∀ (l : List Rat) (t : Rat), 0 ≤ t → (∀ x ∈ l, 0 ≤ x) → 0 ≤ l.foldl fadd t := by
  intro l
  induction l with
  | nil => intro t ht _; simpa using ht
  | cons x l ih =>
    intro t ht h
    rw [List.foldl_cons]
    exact ih _ (fadd_nonneg t x ht (h x (List.mem_cons_self x l)))
      (fun y hy => h y (List.mem_cons_of_mem _ hy))

/-- Running the validation loop over a prefix of items that all pass
validation: each of their ids is looked up, in order, and the loop
continues on the remaining items with some updated accumulators. -/
lemma assembleItems_good_prefix (products : List Product) :
    ∀ (pre rest : List OrderItem) (t : Rat) (acc : List OrderItemDetails),
      (∀ it ∈ pre, goodItem products it) →
      ∃ t2 acc2,
        assembleItems products t acc (pre ++ rest) =
          ((pre.map fun it => it.productId) ++ (assembleItems products t2 acc2 rest).1,
           (assembleItems products t2 acc2 rest).2) := by
  intro pre
  induction pre with
  | nil => exact fun rest t acc _ => ⟨t, acc, rfl⟩
  | cons it pre ih =>
    intro rest t acc h
    obtain ⟨hv, hf⟩ := h it (List.mem_cons_self it pre)
    obtain ⟨p, hp⟩ := Option.isSome_iff_exists.mp hf
    obtain ⟨t2, acc2, heq⟩ := ih rest (fadd t (fmul p.price (roundB64 (it.qty : Rat))))
      (acc ++ [{ productDetails := { name := p.name, id := it.productId }, qty := it.qty }])
      (fun x hx => h x (List.mem_cons_of_mem _ hx))
    refine ⟨t2, acc2, ?_⟩
    simp only [List.cons_append, assembleItems, hv, if_true, hp, List.map_cons]
    rw [List.append_eq, heq]

/-- A failing single item aborts the loop at once: an ill-formed id raises
before any lookup, and a well-formed id whose product is missing raises
after its one lookup; in both cases no later item is looked up. -/
lemma assembleItems_bad_head (products : List Product) (bad : OrderItem)
    (post : List OrderItem) (t : Rat) (acc : List OrderItemDetails)
    (hbad : ¬ goodItem products bad) :
    assembleItems products t acc (bad :: post) =
      ((if isValidObjectId bad.productId then [bad.productId] else []),
       .error (if isValidObjectId bad.productId
               then .http 404 ("Product not found: " ++ bad.productId)
               else .http 400 ("Invalid product ID: " ++ bad.productId))) := by
  by_cases hv : isValidObjectId bad.productId = true
  · cases hp : findProduct products bad.productId with
    | none => simp only [assembleItems, hv, if_true, hp]
    | some p => exact absurd ⟨hv, by rw [hp]; rfl⟩ hbad
  · have hv2 : isValidObjectId bad.productId = false := Bool.eq_false_iff.mpr hv
    simp only [assembleItems, hv2, Bool.false_eq_true, if_false]

/-- A successful run of the validation loop computes the double-arithmetic
accumulation of the line totals of the resolved items onto the incoming
accumulator. -/
lemma assembleItems_ok_total (products : List Product) :
    ∀ (items : List OrderItem) (t : Rat) (acc : List OrderItemDetails)
      (total : Rat) (its : List OrderItemDetails),
      (assembleItems products t acc items).2 = .ok (total, its) →
      ∃ l, floatLineTotals products items = some l ∧ total = l.foldl fadd t := by
  intro items
  induction items with
  | nil =>
    intro t acc total its h
    simp only [assembleItems, Except.ok.injEq, Prod.mk.injEq] at h
    exact ⟨[], rfl, h.1.symm⟩
  | cons item rest ih =>
    intro t acc total its h
    by_cases hv : isValidObjectId item.productId = true
    · cases hp : findProduct products item.productId with
      | none =>
        simp only [assembleItems, hv, if_true, hp] at h
        exact Except.noConfusion h
      | some p =>
        simp only [assembleItems, hv, if_true, hp] at h
        obtain ⟨l, hl, ht⟩ := ih _ _ total its h
        refine ⟨fmul p.price (roundB64 (item.qty : Rat)) :: l, ?_, ?_⟩
        · simp only [floatLineTotals, List.mapM_cons, hp, Option.map_some',
            Option.bind_eq_bind, Option.some_bind]
          rw [floatLineTotals] at hl
          rw [hl]
          rfl
        · rw [ht, List.foldl_cons]
    · have hv2 : isValidObjectId item.productId = false := Bool.eq_false_iff.mpr hv
      simp only [assembleItems, hv2, Bool.false_eq_true, if_false] at h
      exact Except.noConfusion h

/-- When every stored price and every requested quantity is non-negative,
so is every double-arithmetic line total. -/
lemma floatLineTotals_nonneg (products : List Product)
    (hp : ∀ p ∈ products, 0 ≤ p.price) :
    ∀ (items : List OrderItem) (l : List Rat),
      (∀ it ∈ items, 0 ≤ it.qty) →
      floatLineTotals products items = some l → ∀ x ∈ l, 0 ≤ x := by
  intro items
  induction items with
  | nil =>
    intro l _ h
    simp only [floatLineTotals, List.mapM_nil, Option.pure_def, Option.some.injEq] at h
    simp [← h]
  | cons item rest ih =>
    intro l hq h
    simp only [floatLineTotals, List.mapM_cons, Option.bind_eq_bind] at h
    cases hf : findProduct products item.productId with
    | none => rw [hf] at h; simp at h
    | some p =>
      rw [hf] at h
      simp only [Option.map_some', Option.some_bind] at h
      cases hrest : rest.mapM (fun it => (findProduct products it.productId).map
          (fun p => fmul p.price (roundB64 (it.qty : Rat)))) with
      | none => rw [hrest] at h; simp at h
      | some l2 =>
        rw [hrest] at h
        simp only [Option.some_bind, Option.pure_def, Option.some.injEq] at h
        have hmem : p ∈ products := List.mem_of_find?_eq_some hf
        have h1 : 0 ≤ fmul p.price (roundB64 (item.qty : Rat)) :=
          fmul_nonneg _ _ (hp p hmem) (roundB64_nonneg _
            (by exact_mod_cast hq item (List.mem_cons_self item rest)))
        have h2 : ∀ x ∈ l2, 0 ≤ x :=
          ih l2 (fun it hit => hq it (List.mem_cons_of_mem _ hit)) hrest
        intro x hx
        rw [← h] at hx
        rcases List.mem_cons.mp hx with hx1 | hx2
        · rw [hx1]; exact h1
        · exact h2 x hx2

/-- Sample order item referencing the stored product Tee with quantity 2. -/
def itemTee : OrderItem := { productId := "0123456789abcdef01234567", qty := 2 }

/-- Sample order item with a syntactically invalid product id. -/
def itemBadId : OrderItem := { productId := "zzz", qty := 1 }

/-- Sample order item with a well-formed product id that is not stored. -/
def itemMissing : OrderItem := { productId := "cccccccccccccccccccccccc", qty := 1 }

/-- C1: order creation is atomic: exactly one order document is appended to
the orders collection on success, none on any failure, and when the first
offending item has an invalid or unknown product id, the loop aborts there,
so the ids looked up are exactly those of the items before it plus the
offending id itself when it is well-formed (hence none for later items),
and the collection is unchanged. -/
theorem create_order_atomic (products : List Product) (orders : List StoredOrder)
    (order : OrderCreate) (now : Nat) (newId : String) :
    (∀ s v, (create_order products orders order now newId).2 = .success s v →
       ∃ doc, (create_order products orders order now newId).1 = orders ++ [doc]) ∧
    (∀ s d, (create_order products orders order now newId).2 = .failure s d →
       (create_order products orders order now newId).1 = orders) ∧
    (∀ pre bad post, order.items = pre ++ bad :: post →
       (∀ it ∈ pre, goodItem products it) → ¬ goodItem products bad →
       (assembleItems products 0 [] order.items).1 =
         (pre.map fun it => it.productId) ++
           (if isValidObjectId bad.productId then [bad.productId] else []) ∧
       (create_order products orders order now newId).1 = orders) := by
  refine ⟨?_, ?_, ?_⟩
  · intro s v h
    cases hres : (assembleItems products 0 [] order.items).2 with
    | ok r =>
      obtain ⟨tp, oi⟩ := r
      refine ⟨{ _id := newId, userId := order.userId, items := oi
                total := tp, createdAt := now }, ?_⟩
      simp only [create_order, hres]
    | error e =>
      simp only [create_order, hres] at h
      exact HandlerResult.noConfusion h
  · intro s d h
    cases hres : (assembleItems products 0 [] order.items).2 with
    | ok r =>
      obtain ⟨tp, oi⟩ := r
      simp only [create_order, hres] at h
      exact HandlerResult.noConfusion h
    | error e =>
      simp only [create_order, hres]
  · intro pre bad post hitems hpre hbad
    obtain ⟨t2, acc2, heq⟩ := assembleItems_good_prefix products pre (bad :: post) 0 [] hpre
    rw [assembleItems_bad_head products bad post t2 acc2 hbad] at heq
    constructor
    · rw [hitems, heq]
    · simp only [create_order, hitems, heq]

/-- Witness for create_order_atomic: an order whose single item has the
invalid id zzz performs no product lookup and leaves the empty orders
collection empty. -/
theorem create_order_atomic_witness :
    (assembleItems [pTee] 0 [] [itemBadId]).1 = ([] : List String) ∧
    (create_order [pTee] [] { userId := "u1", items := [itemBadId] } 0 "oid").1 = [] := by
  have h := create_order_atomic [pTee] [] { userId := "u1", items := [itemBadId] } 0 "oid"
  have h3 := h.2.2 [] itemBadId []
    rfl (fun it hit => absurd hit (List.not_mem_nil it)) (by decide)
  exact ⟨by rw [h3.1]; decide, h3.2⟩

/-- Sample stored product priced at the exactly representable double 1.0. -/
def pOne : Product :=
  { _id := "dddddddddddddddddddddddd", name := "One", price := 1, sizes := [] }

/-- Sample stored product priced at the exactly representable double
2^(-53): the largest double whose rounded addition to 1.0 gives 1.0 again
under ties-to-even. -/
def pTiny : Product :=
  { _id := "eeeeeeeeeeeeeeeeeeeeeeee", name := "Tiny", price := 1/9007199254740992
    sizes := [] }

/-- C2 counterexample: the persisted total is the rounded double
accumulation, not the exact sum. Ordering one unit each of the products
priced 1.0 and 2^(-53) persists the total 1.0, while the exact sum of
price times qty is 1 + 2^(-53), a different rational. -/
theorem create_order_total_exact_counterexample :
    (create_order [pOne, pTiny] []
        { userId := "u1",
          items := [{ productId := "dddddddddddddddddddddddd", qty := 1 },
                    { productId := "eeeeeeeeeeeeeeeeeeeeeeee", qty := 1 }] } 0 "oid").1 =
      [{ _id := "oid", userId := "u1",
         items := [{ productDetails := { name := "One", id := "dddddddddddddddddddddddd" },
                     qty := 1 },
                   { productDetails := { name := "Tiny", id := "eeeeeeeeeeeeeeeeeeeeeeee" },
                     qty := 1 }],
         total := 1, createdAt := 0 }] ∧
    exactTotal [pOne, pTiny]
        [{ productId := "dddddddddddddddddddddddd", qty := 1 },
         { productId := "eeeeeeeeeeeeeeeeeeeeeeee", qty := 1 }] =
      some (1 + 1/9007199254740992) ∧
    ((1:ℚ) + 1/9007199254740992) ≠ 1 := by
  have hvd : isValidObjectId "dddddddddddddddddddddddd" = true := by decide
  have hve : isValidObjectId "eeeeeeeeeeeeeeeeeeeeeeee" = true := by decide
  have hfd : findProduct [pOne, pTiny] "dddddddddddddddddddddddd" = some pOne := by
    show List.find? _ (pOne :: [pTiny]) = some pOne
    exact List.find?_cons_of_pos _ (by decide)
  have hfe : findProduct [pOne, pTiny] "eeeeeeeeeeeeeeeeeeeeeeee" = some pTiny := by
    show List.find? _ (pOne :: [pTiny]) = some pTiny
    rw [List.find?_cons_of_neg _ (by decide)]
    exact List.find?_cons_of_pos _ (by decide)
  refine ⟨?_, ?_, by norm_num⟩
  · simp only [create_order, assembleItems, hvd, hve, if_true, hfd, hfe]
    norm_num [pOne, pTiny, fmul, fadd, roundB64_one, roundB64_tiny, roundB64_one_add_tiny]
  · simp only [exactTotal, resolveLineTotals, List.mapM_cons, List.mapM_nil, hfd, hfe,
      Option.map_some', Option.some_bind, Option.pure_def]
    norm_num [pOne, pTiny]

/-- C2 (amended): for every order whose creation persists a document, the
persisted total equals the double-arithmetic evaluation of the sum of
price times qty: each line total rounded, accumulated left-to-right with
rounded additions, which coincides with the exact sum whenever every
intermediate value is exactly representable and differs in general. -/
theorem create_order_total_float (products : List Product) (orders : List StoredOrder)
    (order : OrderCreate) (now : Nat) (newId : String) (doc : StoredOrder)
    (h : (create_order products orders order now newId).1 = orders ++ [doc]) :
    floatTotal products order.items = some doc.total := by
  cases hres : (assembleItems products 0 [] order.items).2 with
  | error e =>
    simp only [create_order, hres] at h
    have hlen := congrArg List.length h
    simp at hlen
  | ok r =>
    obtain ⟨tp, oi⟩ := r
    simp only [create_order, hres] at h
    have hdoc := List.append_cancel_left h
    have hdoc2 : doc.total = tp := by
      rw [← List.singleton_injective hdoc]
    obtain ⟨l, hl, ht⟩ := assembleItems_ok_total products order.items 0 [] tp oi hres
    rw [floatTotal, hl, hdoc2, ht]
    simp

/-- Witness for create_order_total_float: ordering two units of the 20.0
product Tee persists the total 40.0, the double evaluation (here equal to
the exact sum, every value being representable). -/
theorem create_order_total_float_witness :
    floatTotal [pTee] [itemTee] = some 40 := by
  have hv : isValidObjectId "0123456789abcdef01234567" = true := by decide
  have hfp : findProduct [pTee] "0123456789abcdef01234567" = some pTee := by
    show List.find? _ (pTee :: []) = some pTee
    exact List.find?_cons_of_pos _ (by decide)
  have hc : (create_order [pTee] [] { userId := "u1", items := [itemTee] } 0 "oid").1 =
      [] ++
        [{ _id := "oid", userId := "u1",
           items := [{ productDetails := { name := "Tee", id := "0123456789abcdef01234567" },
                       qty := 2 }],
           total := 40, createdAt := 0 }] := by
    simp only [create_order, assembleItems, itemTee, hv, if_true, hfp]
    norm_num [pTee, fmul, fadd, roundB64_two, roundB64_forty]
  exact create_order_total_float [pTee] [] { userId := "u1", items := [itemTee] } 0 "oid" _ hc

/-- C5: an order item whose product id is not well-formed makes the request
fail with a 400 whose detail cites that id; a well-formed id with no stored
product makes it fail with a 404 whose detail cites that id; any other
exception is translated to a 500 at the handler boundary. -/
theorem create_order_error_codes (products : List Product) (orders : List StoredOrder)
    (userId : String) (now : Nat) (newId : String)
    (pre : List OrderItem) (bad : OrderItem) (post : List OrderItem)
    (hpre : ∀ it ∈ pre, goodItem products it) :
    (isValidObjectId bad.productId = false →
       (create_order products orders { userId := userId, items := pre ++ bad :: post }
           now newId).2 =
         .failure 400 ("Invalid product ID: " ++ bad.productId)) ∧
    (isValidObjectId bad.productId = true → findProduct products bad.productId = none →
       (create_order products orders { userId := userId, items := pre ++ bad :: post }
           now newId).2 =
         .failure 404 ("Product not found: " ++ bad.productId)) ∧
    (∀ m, handleExc (.other m) = (500, m)) := by
  refine ⟨?_, ?_, fun m => rfl⟩
  · intro hv
    have hbad : ¬ goodItem products bad := fun hg => by
      rw [hg.1] at hv
      exact Bool.noConfusion hv
    obtain ⟨t2, acc2, heq⟩ := assembleItems_good_prefix products pre (bad :: post) 0 [] hpre
    rw [assembleItems_bad_head products bad post t2 acc2 hbad] at heq
    rw [hv] at heq
    simp only [Bool.false_eq_true, if_false] at heq
    simp only [create_order, heq]
    rfl
  · intro hv hf
    have hbad : ¬ goodItem products bad := by
      rintro ⟨hg1, hg2⟩
      rw [hf] at hg2
      exact Bool.noConfusion hg2
    obtain ⟨t2, acc2, heq⟩ := assembleItems_good_prefix products pre (bad :: post) 0 [] hpre
    rw [assembleItems_bad_head products bad post t2 acc2 hbad] at heq
    rw [hv] at heq
    simp only [if_true] at heq
    simp only [create_order, heq]
    rfl

/-- Witness for create_order_error_codes: the invalid id zzz yields a 400
citing zzz, the missing well-formed id yields a 404 citing it, and an
unexpected exception is reported as a 500. -/
theorem create_order_error_codes_witness :
    (create_order [pTee] [] { userId := "u1", items := [] ++ itemBadId :: [] } 0 "oid").2 =
      .failure 400 ("Invalid product ID: " ++ itemBadId.productId) ∧
    (create_order [pTee] [] { userId := "u1", items := [] ++ itemMissing :: [] } 0 "oid").2 =
      .failure 404 ("Product not found: " ++ itemMissing.productId) ∧
    handleExc (.other "store unavailable") = (500, "store unavailable") := by
  have h1 := create_order_error_codes [pTee] [] "u1" 0 "oid" [] itemBadId []
    (fun it hit => absurd hit (List.not_mem_nil it))
  have h2 := create_order_error_codes [pTee] [] "u1" 0 "oid" [] itemMissing []
    (fun it hit => absurd hit (List.not_mem_nil it))
  exact ⟨h1.1 (by decide), h2.2.1 (by decide) (by decide), h2.2.2 "store unavailable"⟩

/-- C6: when every stored price is non-negative and every requested qty is
non-negative (the ranges the inbound schema layer is trusted to enforce),
any order document persisted by order creation has a non-negative total. -/
theorem order_total_nonneg (products : List Product) (orders : List StoredOrder)
    (order : OrderCreate) (now : Nat) (newId : String) (doc : StoredOrder)
    (hp : ∀ p ∈ products, 0 ≤ p.price)
    (hq : ∀ it ∈ order.items, 0 ≤ it.qty)
    (h : (create_order products orders order now newId).1 = orders ++ [doc]) :
    0 ≤ doc.total := by
  cases hres : (assembleItems products 0 [] order.items).2 with
  | error e =>
    simp only [create_order, hres] at h
    have hlen := congrArg List.length h
    simp at hlen
  | ok r =>
    obtain ⟨tp, oi⟩ := r
    simp only [create_order, hres] at h
    have hdoc := List.append_cancel_left h
    have hdoc2 : doc.total = tp := by
      rw [← List.singleton_injective hdoc]
    obtain ⟨l, hl, ht⟩ := assembleItems_ok_total products order.items 0 [] tp oi hres
    rw [hdoc2, ht]
    exact foldl_fadd_nonneg l 0 le_rfl (floatLineTotals_nonneg products hp order.items l hq hl)

/-- Witness for order_total_nonneg: the persisted total 40.0 of the sample
Tee order is non-negative. -/
theorem order_total_nonneg_witness :
    (0 : Rat) ≤
      ({ _id := "oid", userId := "u1",
         items := [{ productDetails := { name := "Tee", id := "0123456789abcdef01234567" },
                     qty := 2 }],
         total := 40, createdAt := 0 } : StoredOrder).total := by
  have hv : isValidObjectId "0123456789abcdef01234567" = true := by decide
  have hfp : findProduct [pTee] "0123456789abcdef01234567" = some pTee := by
    show List.find? _ (pTee :: []) = some pTee
    exact List.find?_cons_of_pos _ (by decide)
  have hc : (create_order [pTee] [] { userId := "u1", items := [itemTee] } 0 "oid").1 =
      [] ++
        [{ _id := "oid", userId := "u1",
           items := [{ productDetails := { name := "Tee", id := "0123456789abcdef01234567" },
                       qty := 2 }],
           total := 40, createdAt := 0 }] := by
    simp only [create_order, assembleItems, itemTee, hv, if_true, hfp]
    norm_num [pTee, fmul, fadd, roundB64_two, roundB64_forty]
  exact order_total_nonneg [pTee] [] { userId := "u1", items := [itemTee] } 0 "oid" _
    (by decide) (by decide) hc

/-- C9: creating an order with an empty items list succeeds: no product
lookup occurs, exactly one order document with empty items and total 0.0
is appended, and a 201 with the new id is returned. -/
theorem empty_items_order_succeeds (products : List Product) (orders : List StoredOrder)
    (userId : String) (now : Nat) (newId : String) :
    create_order products orders { userId := userId, items := [] } now newId =
      (orders ++ [{ _id := newId, userId := userId, items := [], total := 0, createdAt := now }],
       .success 201 newId) ∧
    (assembleItems products 0 [] ([] : List OrderItem)).1 = [] :=
  ⟨rfl, rfl⟩

end ECom
